import Mathlib

/-!
Verification development for the economic-intelligence collection-and-enrichment
pipeline.  The Python sources are shallowly embedded: pure helpers become Lean
functions over `String`/`List Char`, the stateful rate limiter and failover
dispatcher become explicit state-passing functions driven by caller-supplied
schedules / network-outcome oracles, and wall-clock time is modelled by natural
numbers (sleeps advance time exactly, instructions take no time).
-/

namespace EIA

/-! ## Python string primitives

Python `str` operations used by the sources, modelled over `String.data`
(`List Char`) so that everything evaluates in the kernel. -/

/-- The whitespace characters stripped by Python `str.strip()`. -/
def pySpace (c : Char) : Bool :=
  c = ' ' || c = '\t' || c = '\n' || c = '\r' || c = '\x0b' || c = '\x0c'

/-- Python `str.strip()` on a character list: drop whitespace from both ends. -/
def pyStripList (l : List Char) : List Char :=
  ((l.dropWhile pySpace).reverse.dropWhile pySpace).reverse

/-- Python `str.strip()`. -/
def pyStrip (s : String) : String :=
  ⟨pyStripList s.data⟩

/-- Python `str.strip(chars)`: drop any of the given characters from both ends. -/
def pyStripChars (cs : List Char) (s : String) : String :=
  ⟨((s.data.dropWhile (cs.contains ·)).reverse.dropWhile (cs.contains ·)).reverse⟩

/-- Python `str.lower()` (ASCII case folding, which covers every keyword table
in the sources). -/
def pyLower (s : String) : String :=
  ⟨s.data.map Char.toLower⟩

/-- Python slicing `s[:n]`. -/
def pyTake (s : String) (n : ℕ) : String :=
  ⟨s.data.take n⟩

/-- Python substring test `sub in s`. -/
def pyIn (sub s : String) : Bool :=
  s.data.tails.any (fun t => sub.data.isPrefixOf t)

/-- Python `any(kw in s for kw in kws)`. -/
def pyAnyIn (kws : List String) (s : String) : Bool :=
  kws.any (fun kw => pyIn kw s)

/-! ## Source Record (`Article`, `src/collectors/base_collector.py`)

Only construction defaults and the fields read or written by the embedded code
are modelled; `published_date` stands for an already-parsed timestamp (the
external `datetime` is abstracted to `ℕ`, `datetime.min` to `0`). -/

structure Article where
  title : String
  url : String
  source : String
  sourceFull : String
  category : String
  publishedDate : Option ℕ := none
  summary : String := ""
  contentPreview : String := ""
  contentType : String := "article"
  author : String := ""
  tags : List String := []
  aiSummary : String := ""
  aiAnalysis : String := ""
  aiCategory : String := ""
  importanceScore : ℕ := 0
  importanceLevel : String := ""
  themes : List String := []
  verificationStatus : String := "unverified"
  deriving DecidableEq, Repr

/-! ## Importance scoring (`GeminiAnalyzer._calculate_importance`,
`GeminiAnalyzer._get_importance_level`) -/

/-- `GeminiAnalyzer._calculate_importance`. -/
def calculateImportance (article : Article) : ℕ :=
  let score := 3
  let criticalSources := ["Fed", "ECB", "RBI", "IMF", "World Bank", "BoE", "BoJ", "PBoC"]
  let highSources := ["OECD", "WEF", "BIS", "McKinsey", "Goldman Sachs", "JP Morgan"]
  let score :=
    if criticalSources.contains article.source then score + 3
    else if highSources.contains article.source then score + 2
    else score
  let score :=
    if ["report", "data_release", "speech"].contains article.contentType then score + 2
    else if ["working_paper", "expert_opinion"].contains article.contentType then score + 1
    else score
  let titleLower := pyLower article.title
  let criticalKeywords := ["rate decision", "fomc", "mpc", "gdp", "inflation", "recession",
    "crisis", "emergency", "downgrade", "upgrade", "outlook"]
  let score := if pyAnyIn criticalKeywords titleLower then score + 2 else score
  min score 10

/-- `GeminiAnalyzer._get_importance_level`. -/
def getImportanceLevel (score : ℕ) : String :=
  if score ≥ 8 then "Critical"
  else if score ≥ 5 then "Important"
  else "Standard"

/-! ## Collection Coordinator (`CollectorManager._collect_from_org`)

The network collectors are abstracted: `collectFromOrg` receives the
concatenated collector outputs and applies the coordinator's own passes
(URL dedup with a `seen_urls` set, stable descending date sort, truncation). -/

/-- The `seen_urls` loop of `CollectorManager._collect_from_org`: keep an
article iff its URL has not been seen before. -/
def dedupByUrlAux (seen : List String) : List Article → List Article
  | [] => []
  | a :: rest =>
    if seen.contains a.url then dedupByUrlAux seen rest
    else a :: dedupByUrlAux (a.url :: seen) rest

/-- URL deduplication starting from an empty `seen_urls` set. -/
def dedupByUrl (articles : List Article) : List Article :=
  dedupByUrlAux [] articles

/-- Sort key `a.published_date or datetime.min` (absent dates sort as oldest). -/
def dateKey (a : Article) : ℕ :=
  a.publishedDate.getD 0

/-- `unique_articles.sort(key=..., reverse=True)`: stable sort, newest first. -/
def sortByDateDesc (articles : List Article) : List Article :=
  articles.insertionSort (fun a b => dateKey b ≤ dateKey a)

/-- `CollectorManager._collect_from_org` after the collector calls: dedup by
URL, sort by date descending, truncate to `MAX_ARTICLES_PER_ORG`. -/
def collectFromOrg (articles : List Article) (maxArticles : ℕ) : List Article :=
  (sortByDateDesc (dedupByUrl articles)).take maxArticles

/-! ## Feed Collector (`RSSCollector._entry_to_article`)

External pieces are abstracted to already-processed values on the entry:
`publishedDate` is the result of the structured/free-text date parsing and
`summaryText`/`contentText` are the HTML-cleaned summary and content. -/

/-- Organization configuration fields used by `BaseCollector.create_article`. -/
structure OrgInfo where
  shortName : String
  name : String
  category : String
  deriving DecidableEq, Repr

/-- A parsed feed entry (`feedparser` entry), with the externally-parsed
date and HTML-cleaned text fields abstracted to plain values. -/
structure FeedEntry where
  title : String := ""
  link : String := ""
  idAttr : String := ""
  publishedDate : Option ℕ := none
  summaryText : String := ""
  contentText : String := ""
  author : String := ""
  tags : List String := []
  deriving DecidableEq, Repr

/-- `RSSCollector._determine_content_type` (the source lowercases the tags as
well but every condition tests only the lowercased title). -/
def determineContentType (title : String) (tags : List String) : String :=
  let titleLower := pyLower title
  let _tagsLower := tags.map pyLower
  if pyAnyIn ["report", "outlook", "survey"] titleLower then "report"
  else if pyAnyIn ["press release", "announcement"] titleLower then "press_release"
  else if pyAnyIn ["working paper", "research paper", "paper"] titleLower then "working_paper"
  else if pyAnyIn ["speech", "remarks", "address"] titleLower then "speech"
  else if pyAnyIn ["blog", "insight", "analysis"] titleLower then "insight"
  else if pyIn "data" titleLower || pyIn "statistics" titleLower then "data_release"
  else "article"

/-- `BaseCollector.create_article` composed with `Article.__post_init__`
(defaults "Untitled"/"#" for empty title/url, whitespace-trimmed sources). -/
def createArticle (org : OrgInfo) (title url : String) (publishedDate : Option ℕ)
    (summary contentPreview contentType author : String) (tags : List String) : Article :=
  { title := if title = "" then "Untitled" else title
    url := if url = "" then "#" else url
    source := pyStrip org.shortName
    sourceFull := pyStrip org.name
    category := org.category
    publishedDate := publishedDate
    summary := summary
    contentPreview := contentPreview
    contentType := contentType
    author := author
    tags := tags }

/-- `RSSCollector._entry_to_article`. -/
def entryToArticle (org : OrgInfo) (entry : FeedEntry) : Option Article :=
  let title := pyStrip entry.title
  if title = "" then none
  else
    let url := if entry.link ≠ "" then entry.link else entry.idAttr
    if url = "" then none
    else
      let summary := entry.summaryText
      let contentPreview := entry.contentText
      let contentType := determineContentType title entry.tags
      some (createArticle org title url entry.publishedDate
        (pyTake summary 500) (pyTake contentPreview 1000) contentType entry.author entry.tags)

/-! ## Content Analyzer enrichment (`GeminiAnalyzer`)

The Gemini network calls are abstracted to oracle responses (`Except Unit
String`: a response text or a raised exception); the prompt strings are
business content and are not modelled.  An unexpected exception anywhere in
the `try` block of `analyze_article` is modelled by `exnAt = some k`: the
exception fires after the first `k` statements of the block have completed. -/

/-- The ordered category keyword table of `GeminiAnalyzer._categorize`. -/
def categoryTable : List (String × List String) :=
  [("Monetary Policy", ["interest rate", "monetary policy", "central bank", "inflation target", "policy rate"]),
   ("Fiscal Policy", ["budget", "fiscal", "government spending", "taxation", "deficit"]),
   ("Trade & Tariffs", ["trade", "tariff", "export", "import", "wto", "trade war"]),
   ("Employment", ["employment", "unemployment", "jobs", "labor", "workforce", "wage"]),
   ("GDP & Growth", ["gdp", "growth", "recession", "economic outlook", "expansion"]),
   ("Inflation", ["inflation", "cpi", "price", "deflation", "consumer price"]),
   ("Financial Markets", ["market", "stock", "bond", "equity", "forex", "currency"]),
   ("Banking & Finance", ["bank", "lending", "credit", "financial stability", "liquidity"]),
   ("Development", ["development", "poverty", "inequality", "sdg", "sustainable"]),
   ("Industry & Sector", ["industry", "sector", "manufacturing", "services", "technology"]),
   ("Rating Actions", ["rating", "downgrade", "upgrade", "credit rating", "outlook"]),
   ("Data Release", ["data", "statistics", "indicator", "release", "figures"])]

/-- `GeminiAnalyzer._categorize`: first keyword table entry matching the
combined lowercased title and summary, default "General Economic". -/
def categorize (article : Article) : String :=
  let combined := pyLower article.title ++ " " ++ pyLower article.summary
  match categoryTable.find? (fun p => pyAnyIn p.2 combined) with
  | some p => p.1
  | none => "General Economic"

/-- The curated authority name list of `GeminiAnalyzer._is_expert_opinion`
(the third Nobel-laureate name carries the source file's own mojibake). -/
def notableExperts : List String :=
  ["paul krugman", "joseph stiglitz", "robert shiller", "eugene fama",
   "richard thaler", "angus deaton", "jean tirole", "bengt holmstrÃ¶m",
   "abhijit banerjee", "esther duflo", "michael kremer",
   "gita gopinath", "pierre-olivier gourinchas", "carmen reinhart",
   "raghuram rajan", "urjit patel", "shaktikanta das",
   "janet yellen", "jerome powell", "christine lagarde", "mark carney",
   "mario draghi", "ben bernanke", "alan greenspan",
   "nouriel roubini", "mohamed el-erian", "larry summers",
   "kenneth rogoff", "dani rodrik", "arvind subramanian",
   "martin wolf", "gillian tett", "rana foroohar"]

/-- `GeminiAnalyzer._is_expert_opinion`; it may tag the article by mutating
`content_type`, so it returns the possibly-updated article as well. -/
def isExpertOpinion (article : Article) : Bool × Article :=
  let authorLower := pyLower article.author
  let titleLower := pyLower article.title
  let contentLower := pyLower article.summary
  if notableExperts.any (fun e => pyIn e authorLower || pyIn e titleLower || pyIn e contentLower) then
    (true, { article with contentType := "expert_opinion" })
  else
    let opinionIndicators := ["opinion", "op-ed", "commentary", "perspective", "viewpoint", "analysis by"]
    let isOpinion := opinionIndicators.any (fun ind => pyIn ind titleLower)
    if isOpinion && (["FT", "WSJ", "Bloomberg", "Reuters", "Brookings", "PIIE"].any
        (fun o => pyIn o article.source)) then
      let authorityTitles := ["chief economist", "former governor", "nobel laureate",
        "professor", "dr.", "director", "chairman", "president"]
      if authorityTitles.any (fun t => pyIn t contentLower || pyIn t authorLower) then
        (true, { article with contentType := "expert_opinion" })
      else (false, article)
    else (false, article)

/-- `GeminiAnalyzer._is_major_item` (also returns the article because the
expert-opinion check may retag `content_type`). -/
def isMajorItem (article : Article) : Bool × Article :=
  if ["report", "working_paper", "speech", "data_release"].contains article.contentType then
    (true, article)
  else if ["IMF", "World Bank", "RBI", "OECD", "WEF", "BIS", "McKinsey", "Deloitte",
      "BCG", "PwC", "Goldman Sachs", "JP Morgan", "Brookings", "PIIE"].contains article.source then
    (true, article)
  else if pyLower article.title ≠ "" &&
      pyAnyIn ["outlook", "report", "survey", "forecast", "index", "review",
        "economic survey", "annual report", "quarterly", "bulletin"] (pyLower article.title) then
    (true, article)
  else
    isExpertOpinion article

/-- The theme keyword table of `GeminiAnalyzer._assign_themes`. -/
def themeTable : List (String × List String) :=
  [("Monetary Policy", ["interest rate", "central bank", "monetary policy", "repo rate",
     "fed", "ecb", "fomc", "mpc", "quantitative"]),
   ("Inflation", ["inflation", "cpi", "price index", "deflation", "stagflation"]),
   ("Growth & GDP", ["gdp", "growth", "recession", "expansion", "economic outlook"]),
   ("Employment", ["employment", "unemployment", "jobs", "labor", "wage", "workforce"]),
   ("Trade", ["trade", "tariff", "export", "import", "wto", "trade war", "protectionism"]),
   ("Fiscal Policy", ["budget", "fiscal", "government spending", "taxation", "deficit"]),
   ("Financial Stability", ["financial stability", "systemic risk", "banking crisis", "stress test"]),
   ("Currency & Forex", ["currency", "forex", "exchange rate", "dollar", "yuan", "rupee"]),
   ("Debt & Credit", ["debt", "credit", "bond", "yield", "sovereign debt", "credit rating"]),
   ("Technology & AI", ["technology", "digital", "ai", "fintech", "cryptocurrency"]),
   ("Climate & ESG", ["climate", "esg", "sustainable", "green", "carbon", "net zero"]),
   ("Emerging Markets", ["emerging market", "developing", "brics", "frontier market"])]

/-- `GeminiAnalyzer._assign_themes`: all matching themes, else the catch-all. -/
def assignThemes (article : Article) : List String :=
  let combined := pyLower (article.title ++ " " ++ article.summary)
  let themes := (themeTable.filter (fun p => pyAnyIn p.2 combined)).map (fun p => p.1)
  if themes = [] then ["General Economic"] else themes

/-- Oracle for one `analyze_article` call: the two Gemini responses and the
point (statement count) at which an unexpected exception fires, if any. -/
structure GeminiOracle where
  summaryResp : Except Unit String := .error ()
  analysisResp : Except Unit String := .error ()
  exnAt : Option ℕ := none

/-- `GeminiAnalyzer._generate_summary`: strip, drop surrounding quotes, cap at
300 characters; its own `except` path falls back to the truncated original
summary. -/
def generateSummaryG (article : Article) (resp : Except Unit String) : String :=
  match resp with
  | .ok t => pyTake (pyStripChars ['"', '\''] (pyStrip t)) 300
  | .error _ =>
    if article.summary ≠ "" then pyTake article.summary 150 else "Summary not available"

/-- `GeminiAnalyzer._generate_analysis`: stripped response text, empty on its
own caught failure. -/
def generateAnalysisG (resp : Except Unit String) : String :=
  match resp with
  | .ok t => pyStrip t
  | .error _ => ""

/-- Statement 1 of the `try` block of `analyze_article`:
`article.ai_summary = self._generate_summary(article)`. -/
def tryStage1 (o : GeminiOracle) (a : Article) : Article :=
  { a with aiSummary := generateSummaryG a o.summaryResp }

/-- Statement 2: `if self._is_major_item(article): article.ai_analysis = ...`
(the predicate itself may retag `content_type`). -/
def tryStage2 (o : GeminiOracle) (a1 : Article) : Article :=
  let m := isMajorItem a1
  if m.1 then { m.2 with aiAnalysis := generateAnalysisG o.analysisResp } else m.2

/-- Statement 3: `article.ai_category = self._categorize(article)`. -/
def tryStage3 (a2 : Article) : Article :=
  { a2 with aiCategory := categorize a2 }

/-- Statement 4: `article.importance_score = self._calculate_importance(article)`. -/
def tryStage4 (a3 : Article) : Article :=
  { a3 with importanceScore := calculateImportance a3 }

/-- Statement 5: `article.importance_level = self._get_importance_level(...)`. -/
def tryStage5 (a4 : Article) : Article :=
  { a4 with importanceLevel := getImportanceLevel a4.importanceScore }

/-- Statement 6: `article.themes = self._assign_themes(article)`. -/
def tryStage6 (a5 : Article) : Article :=
  { a5 with themes := assignThemes a5 }

/-- Statement 7: `article.verification_status = "verified" if article.ai_summary
else "unverified"`. -/
def tryStage7 (a6 : Article) : Article :=
  { a6 with verificationStatus := if a6.aiSummary ≠ "" then "verified" else "unverified" }

/-- The first `k` statements of the `try` block of
`GeminiAnalyzer.analyze_article`, in order.  Statement 0 is the rate-limit
call (no article mutation). -/
def tryUpTo (o : GeminiOracle) (a : Article) : ℕ → Article
  | 0 => a
  | 1 => tryStage1 o a
  | 2 => tryStage2 o (tryStage1 o a)
  | 3 => tryStage3 (tryStage2 o (tryStage1 o a))
  | 4 => tryStage4 (tryStage3 (tryStage2 o (tryStage1 o a)))
  | 5 => tryStage5 (tryStage4 (tryStage3 (tryStage2 o (tryStage1 o a))))
  | 6 => tryStage6 (tryStage5 (tryStage4 (tryStage3 (tryStage2 o (tryStage1 o a)))))
  | _ + 7 =>
    tryStage7 (tryStage6 (tryStage5 (tryStage4 (tryStage3 (tryStage2 o (tryStage1 o a))))))

/-- The `except` handler of `GeminiAnalyzer.analyze_article`: deterministic
fallback values for the five AI fields. -/
def analyzeFallback (a : Article) : Article :=
  { a with
    aiSummary := if a.summary ≠ "" then pyTake a.summary 150 else "Summary not available"
    aiAnalysis := ""
    aiCategory := "General"
    importanceScore := 3
    importanceLevel := "Standard" }

/-- `GeminiAnalyzer.analyze_article`: run the `try` block to completion, or up
to the exception point and then through the `except` handler.  Total by
construction — it always returns an article to the caller. -/
def analyzeArticle (o : GeminiOracle) (a : Article) : Article :=
  match o.exnAt with
  | none => tryUpTo o a 7
  | some k => analyzeFallback (tryUpTo o a (min k 7))

/-- `GeminiAnalyzer.analyze_batch`: sequential per-item processing (the
progress logging and inter-batch sleeps do not affect the result). -/
def analyzeBatch (items : List (GeminiOracle × Article)) : List Article :=
  items.map (fun p => analyzeArticle p.1 p.2)

/-! ## Rate-Limited Model Client (`GeminiAnalyzer._check_rate_limit`,
`OpenRouterAnalyzer._rate_limit`)

Wall-clock time is `ℕ` with origin at client construction; `time.sleep`
advances the clock exactly.  Both limiters have the same structure and are
embedded once, parameterized by the minimum delay and the per-window cap
(Gemini: 4 s / 10 per window; OpenRouter pacing: 3 s / 15 per window;
OpenRouter places the cap-branch counter reset after the `wait > 0` test
rather than inside it, which coincides because that branch always has
`wait ≥ 5` — proved below). -/

/-- The mutable pacing state (`request_count`, `last_reset`,
`last_request_time`). -/
structure RateState where
  requestCount : ℕ
  lastReset : ℕ
  lastRequestTime : ℕ
  deriving DecidableEq, Repr

/-- State at client construction (`__init__`): counter 0, window start at the
construction instant (the time origin), no previous request. -/
def initRateState : RateState :=
  ⟨0, 0, 0⟩

/-- One `_check_rate_limit` call.  The caller is sequential, so the call is
entered `gap` seconds after the previous request; the result is the new state
and the request timestamp (`last_request_time` recorded at the end). -/
def rlStep (minDelay cap : ℕ) (s : RateState) (gap : ℕ) : RateState × ℕ :=
  let now := s.lastRequestTime + gap
  -- minimum delay between requests: sleep the remainder of `minDelay`
  let t := if now - s.lastRequestTime < minDelay then
    now + (minDelay - (now - s.lastRequestTime)) else now
  -- window expiry: reset the counter
  let s1 := if t - s.lastReset > 60 then { s with requestCount := 0, lastReset := t } else s
  -- window cap: wait out the rest of the window (65 s mark), then reset
  let (s2, t2) :=
    if s1.requestCount ≥ cap then
      let wait : ℤ := 65 - ((t : ℤ) - (s1.lastReset : ℤ))
      if wait > 0 then
        ({ s1 with requestCount := 0, lastReset := t + wait.toNat }, t + wait.toNat)
      else (s1, t)
    else (s1, t)
  ({ s2 with requestCount := s2.requestCount + 1, lastRequestTime := t2 }, t2)

/-- A sequence of client calls, each entered the given gap after the previous
request; emits, per request, its timestamp and the window (`last_reset` value)
it was counted in. -/
def rlRun (minDelay cap : ℕ) (s : RateState) : List ℕ → List (ℕ × ℕ)
  | [] => []
  | gap :: gaps =>
    let st := rlStep minDelay cap s gap
    (st.2, st.1.lastReset) :: rlRun minDelay cap st.1 gaps

/-- The spec's sliding-window property for a list of request timestamps:
every 60-second window contains at most `cap` requests. -/
def slidingWindowCapOk (cap : ℕ) (times : List ℕ) : Prop :=
  ∀ a : ℕ, (times.filter (fun t => a ≤ t && t < a + 60)).length ≤ cap

/-! ## Failover Dispatcher (`OpenRouterAnalyzer`)

Network responses are an oracle list consumed one element per issued request:
HTTP 200 with content, HTTP 429 (throttling), another status code, or a raised
request exception.  `FREE_MODELS` has 4 entries and
`max_consecutive_errors = 3`. -/

/-- One network outcome for an OpenRouter request. -/
inductive ApiOutcome where
  | ok (content : String)
  | throttled
  | otherError
  | exn
  deriving DecidableEq, Repr

/-- The dispatcher state of `OpenRouterAnalyzer`. -/
structure ORState where
  currentModelIndex : ℕ
  consecutiveErrors : ℕ
  quotaExhausted : Bool
  successfulRequests : ℕ
  failedRequests : ℕ
  deriving DecidableEq, Repr

/-- Dispatcher state at construction. -/
def orInitState : ORState :=
  ⟨0, 0, false, 0, 0⟩

/-- Number of entries of `FREE_MODELS`. -/
def numModels : ℕ := 4

/-- `max_consecutive_errors`. -/
def maxConsecutiveErrors : ℕ := 3

/-- `OpenRouterAnalyzer._switch_model`: advance to the next model if one
exists, resetting `consecutive_errors`. -/
def switchModel (s : ORState) : ORState × Bool :=
  if s.currentModelIndex < numModels - 1 then
    ({ s with currentModelIndex := s.currentModelIndex + 1, consecutiveErrors := 0 }, true)
  else (s, false)

/-- `OpenRouterAnalyzer._call_api`.  Returns the final state, the optional
response content, and the issued requests as (model index, outcome) pairs in
order.  The `_rate_limit` gate returns `False` exactly when `quota_exhausted`,
in which case no request is issued.  A 429 recurses (after the linear-backoff
sleep) unless the switch fails, which sets `quota_exhausted`. -/
def callApi : ORState → List ApiOutcome → ORState × Option String × List (ℕ × ApiOutcome)
  | s, [] => (s, none, [])
  | s, o :: rest =>
    if s.quotaExhausted then (s, none, [])
    else
      match o with
        | .ok content =>
          ({ s with consecutiveErrors := 0, successfulRequests := s.successfulRequests + 1 },
            some content, [(s.currentModelIndex, o)])
        | .throttled =>
          let s1 := { s with
            consecutiveErrors := s.consecutiveErrors + 1
            failedRequests := s.failedRequests + 1 }
          if s1.consecutiveErrors ≥ maxConsecutiveErrors then
            let sw := switchModel s1
            if sw.2 then
              let c := callApi sw.1 rest
              (c.1, c.2.1, (s.currentModelIndex, o) :: c.2.2)
            else
              ({ sw.1 with quotaExhausted := true }, none, [(s.currentModelIndex, o)])
          else
            let c := callApi s1 rest
            (c.1, c.2.1, (s.currentModelIndex, o) :: c.2.2)
        | .otherError =>
          ({ s with failedRequests := s.failedRequests + 1 }, none, [(s.currentModelIndex, o)])
        | .exn =>
          ({ s with failedRequests := s.failedRequests + 1 }, none, [(s.currentModelIndex, o)])

/-- The deterministic fallback of `OpenRouterAnalyzer.generate_summary`
(`article.summary[:150] if article.summary else "Summary unavailable"`). -/
def orSummaryFallback (article : Article) : String :=
  if article.summary ≠ "" then pyTake article.summary 150 else "Summary unavailable"

/-- `OpenRouterAnalyzer.generate_summary`: short-circuit on quota exhaustion,
otherwise one `_call_api`; a truthy (non-empty) result is stripped and capped
at 200 characters, anything else falls back. -/
def orGenerateSummary (s : ORState) (article : Article) (outcomes : List ApiOutcome) :
    ORState × String × List (ℕ × ApiOutcome) :=
  if s.quotaExhausted then (s, orSummaryFallback article, [])
  else
    let (s', r, atts) := callApi s outcomes
    match r with
    | some t => if t ≠ "" then (s', pyTake (pyStrip t) 200, atts)
      else (s', orSummaryFallback article, atts)
    | none => (s', orSummaryFallback article, atts)

/-! ## Document chunker (`PDFProcessor._chunk_text`)

Text is a `List Char`; Python's `while` loop is embedded with a fuel
parameter (`text.length + 1` suffices because every iteration strictly
advances `start` under the call-site parameters, where
`overlap < chunk_size / 2`). -/

/-- Python `text.rfind(sub, lo, hi)`: the largest `i` with `lo ≤ i`,
`i + |sub| ≤ hi` and `sub` occurring at `i` in `text`; `-1` when there is
none.  (`tails.enum` pairs every index with the suffix starting there.) -/
def pyRfind (l sub : List Char) (lo hi : ℕ) : ℤ :=
  match ((l.tails.enum.filter
      (fun p => decide (lo ≤ p.1) && decide (p.1 + sub.length ≤ hi) && sub.isPrefixOf p.2)).map
      (fun p => p.1)).getLast? with
  | some i => (i : ℤ)
  | none => -1

/-- The boundary search of one `_chunk_text` iteration: paragraph break in the
back half of the window, else sentence break, else the raw offset. -/
def chunkEnd (text : List Char) (chunkSize : ℕ) (start : ℕ) : ℕ :=
  let e := start + chunkSize
  if e < text.length then
    let paraBreak := pyRfind text ['\n', '\n'] (start + chunkSize / 2) e
    if paraBreak > (start : ℤ) then paraBreak.toNat
    else
      let sentenceBreak := pyRfind text ['.', ' '] (start + chunkSize / 2) e
      if sentenceBreak > (start : ℤ) then sentenceBreak.toNat + 1
      else e
  else e

/-- The `while start < len(text)` loop of `_chunk_text`: emit the stripped
slice (skipping empty ones) and advance `start` to `end - overlap`. -/
def chunkTextAux (text : List Char) (chunkSize overlap : ℕ) : ℕ → ℕ → List (List Char)
  | 0, _ => []
  | fuel + 1, start =>
    if start < text.length then
      let e := chunkEnd text chunkSize start
      let chunk := pyStripList ((text.drop start).take (e - start))
      let next := if e < text.length then e - overlap else text.length
      let rest := chunkTextAux text chunkSize overlap fuel next
      if chunk = [] then rest else chunk :: rest
    else []

/-- `PDFProcessor._chunk_text` (call-site defaults: `chunk_size = 8000`,
`overlap = 500`). -/
def chunkText (text : List Char) (chunkSize overlap : ℕ) : List (List Char) :=
  if text.length ≤ chunkSize then
    if pyStripList text = [] then [] else [text]
  else chunkTextAux text chunkSize overlap (text.length + 1) 0

/-- Concatenate the chunk sequence after removing the fixed `overlap` from the
front of every chunk but the first (the spec's round-trip reading). -/
def reconstruct (overlap : ℕ) : List (List Char) → List Char
  | [] => []
  | c :: rest => c ++ (rest.map (List.drop overlap)).flatten

/-! ## Concrete samples used by witnesses and counterexamples -/

/-- Scenario article of C5: critical source, report, "rate decision" title. -/
def rateDecisionSample : Article where
  title := "Rate Decision announced"
  url := "https://example.org/rate-decision"
  source := "Fed"
  sourceFull := "Federal Reserve"
  category := "Central Banks"
  contentType := "report"

/-- A minimal article for dispatcher and enrichment witnesses. -/
def plainSample : Article where
  title := "zzz"
  url := "https://example.org/zzz"
  source := "zz"
  sourceFull := "zz"
  category := "Other"
  summary := "qqqq"

/-- A feed entry with a resolvable URL but no title. -/
def untitledEntry : FeedEntry where
  link := "https://example.org/untitled"

/-- Organization info for feed-collector samples. -/
def orgSample : OrgInfo where
  shortName := "FT"
  name := "Financial Times"
  category := "Media"

/-- Gap schedule (seconds of caller idle time before each request) exhibiting
a 60-second span that holds 14 requests under the Gemini limiter. -/
def c1Gaps : List ℕ :=
  [46, 4, 4, 4, 3, 0, 0, 0, 0, 0, 0, 0, 0, 0]

/-- An input text of length 8002 with a space right at the first chunk
boundary (position 7999): `'a' * 7999 ++ " " ++ "bb"`. -/
def c4Text : List Char :=
  List.replicate 7999 'a' ++ [' ', 'b', 'b']

/-- An exhausted dispatcher state. -/
def orExhaustedState : ORState :=
  { orInitState with quotaExhausted := true }

/-! # Theorems -/

/-! ## C5: importance bounds, level thresholds, and the scoring scenario -/

/-- C5: for every Source Record the computed importance score satisfies
`1 ≤ score ≤ 10`; the level is "Critical" iff `score ≥ 8`, "Important" iff
`5 ≤ score < 8`, and "Standard" otherwise; and an item from a critical source
with content type report and a title containing "rate decision" scores
3+3+2+2 capped to 10, level "Critical". -/
theorem importance_bounds_levels_and_scenario :
    (∀ a : Article, 1 ≤ calculateImportance a ∧ calculateImportance a ≤ 10) ∧
    (∀ s : ℕ,
      (getImportanceLevel s = "Critical" ↔ 8 ≤ s) ∧
      (getImportanceLevel s = "Important" ↔ 5 ≤ s ∧ s < 8) ∧
      (getImportanceLevel s = "Standard" ↔ s < 5)) ∧
    calculateImportance rateDecisionSample = 10 ∧
    getImportanceLevel (calculateImportance rateDecisionSample) = "Critical" := by
  refine ⟨?_, ?_, by decide, by decide⟩
  · intro a
    unfold calculateImportance
    dsimp only
    split_ifs <;> constructor <;> omega
  · intro s
    unfold getImportanceLevel
    split_ifs with h1 h2 <;> refine ⟨?_, ?_, ?_⟩ <;> simp_all <;> omega

/-! ## C9: feed entries dropped for missing identity data -/

/-- C9 counterexample: a feed entry with a resolvable URL (`link` non-empty)
but no title is dropped by `_entry_to_article`, although the claim says an
entry with a resolvable URL is converted into a Source Record. -/
theorem entry_without_title_dropped :
    untitledEntry.link ≠ "" ∧ entryToArticle orgSample untitledEntry = none := by
  constructor
  · decide
  · rfl

/-- C9 (amended): a feed entry is converted into a Source Record iff its
stripped title is non-empty AND it has a resolvable URL (`link` or `id`);
equivalently it is dropped when either identity component is missing, not
only when both are. -/
theorem entry_conversion_requires_title_and_url :
    ∀ (org : OrgInfo) (e : FeedEntry),
      (entryToArticle org e).isSome ↔
        (pyStrip e.title ≠ "" ∧ (e.link ≠ "" ∨ e.idAttr ≠ "")) := by
  intro org e
  by_cases ht : pyStrip e.title = ""
  · simp [entryToArticle, ht]
  · by_cases hl : e.link = ""
    · by_cases hid : e.idAttr = ""
      · simp [entryToArticle, ht, hl, hid]
      · simp [entryToArticle, ht, hl, hid]
    · simp [entryToArticle, ht, hl]

/-! ## C6: per-organization URL deduplication -/

lemma dedupByUrlAux_not_seen : ∀ (l : List Article) (seen : List String) (a : Article),
    a ∈ dedupByUrlAux seen l → a.url ∉ seen := by
  intro l
  induction l with
  | nil => intro seen a h; simp [dedupByUrlAux] at h
  | cons b rest ih =>
    intro seen a h
    by_cases hb : seen.contains b.url
    · rw [dedupByUrlAux, if_pos hb] at h
      exact ih seen a h
    · rw [dedupByUrlAux, if_neg hb] at h
      rcases List.mem_cons.mp h with h1 | h1
      · subst h1
        simpa using hb
      · have := ih _ a h1
        intro hmem
        exact this (List.mem_cons_of_mem _ hmem)

lemma dedupByUrlAux_pairwise : ∀ (l : List Article) (seen : List String),
    (dedupByUrlAux seen l).Pairwise (fun a b => a.url ≠ b.url) := by
  intro l
  induction l with
  | nil => intro seen; simp [dedupByUrlAux]
  | cons b rest ih =>
    intro seen
    by_cases hb : seen.contains b.url
    · rw [dedupByUrlAux, if_pos hb]
      exact ih seen
    · rw [dedupByUrlAux, if_neg hb]
      refine List.Pairwise.cons ?_ (ih _)
      intro a ha hurl
      have := dedupByUrlAux_not_seen rest (b.url :: seen) a ha
      exact this (by simp [hurl])

lemma dedupByUrlAux_find? : ∀ (l : List Article) (seen : List String) (u : String),
    u ∉ seen →
    (dedupByUrlAux seen l).find? (fun a => a.url == u) = l.find? (fun a => a.url == u) := by
  intro l
  induction l with
  | nil => intro seen u _; simp [dedupByUrlAux]
  | cons b rest ih =>
    intro seen u hu
    by_cases hb : seen.contains b.url
    · rw [dedupByUrlAux, if_pos hb]
      have hbu : (b.url == u) = false := by
        simp only [beq_eq_false_iff_ne, ne_eq]
        intro h
        rw [h] at hb
        simp at hb
        exact hu hb
      rw [List.find?_cons, hbu]
      exact ih seen u hu
    · rw [dedupByUrlAux, if_neg hb]
      by_cases hbu : b.url == u
      · rw [List.find?_cons, hbu, List.find?_cons, hbu]
      · rw [List.find?_cons]
        simp only [Bool.not_eq_true] at hbu
        rw [hbu, List.find?_cons, hbu]
        refine ih _ u ?_
        intro h
        rcases List.mem_cons.mp h with h1 | h1
        · rw [h1] at hbu
          simp at hbu
        · exact hu h1

/-- C6: the per-organization article list of the Collection Coordinator never
contains two Source Records with the same `url`, and the deduplication pass
keeps the first occurrence of each `url` (its `find?` result is unchanged). -/
theorem collect_from_org_urls_nodup_first_kept :
    (∀ (articles : List Article) (maxArticles : ℕ),
      (collectFromOrg articles maxArticles).Pairwise (fun a b => a.url ≠ b.url)) ∧
    (∀ (articles : List Article) (u : String),
      (dedupByUrl articles).find? (fun a => a.url == u) =
        articles.find? (fun a => a.url == u)) := by
  constructor
  · intro articles maxArticles
    have hdedup : (dedupByUrl articles).Pairwise (fun a b => a.url ≠ b.url) :=
      dedupByUrlAux_pairwise articles []
    have hperm : (sortByDateDesc (dedupByUrl articles)).Perm (dedupByUrl articles) :=
      List.perm_insertionSort _ _
    have hsorted : (sortByDateDesc (dedupByUrl articles)).Pairwise (fun a b => a.url ≠ b.url) :=
      (List.Perm.pairwise_iff (fun h => Ne.symm h) hperm).mpr hdedup
    exact List.Pairwise.sublist (List.take_sublist _ _) hsorted
  · intro articles u
    exact dedupByUrlAux_find? articles [] u (by simp)

/-! ## C7 / C8: per-item enrichment error recovery and themes -/

lemma isExpertOpinion_summary (a : Article) : ((isExpertOpinion a).2).summary = a.summary := by
  unfold isExpertOpinion
  dsimp only
  split_ifs <;> rfl

lemma isMajorItem_summary (a : Article) : ((isMajorItem a).2).summary = a.summary := by
  unfold isMajorItem
  split_ifs <;> first | rfl | exact isExpertOpinion_summary a

lemma tryStage2_summary (o : GeminiOracle) (a : Article) :
    (tryStage2 o a).summary = a.summary := by
  unfold tryStage2
  dsimp only
  split_ifs <;> simp [isMajorItem_summary]

lemma tryUpTo_summary (o : GeminiOracle) (a : Article) :
    ∀ k : ℕ, (tryUpTo o a k).summary = a.summary := by
  intro k
  rcases k with _|_|_|_|_|_|_|k <;>
    simp [tryUpTo, tryStage1, tryStage3, tryStage4, tryStage5, tryStage6, tryStage7,
      tryStage2_summary]

/-- C7: per-item enrichment never raises to its caller: whatever the oracle
(including an unexpected exception at any point of the `try` block), the item
comes back with the deterministic fallback values — truncated original summary
as `ai_summary`, empty analysis, default category "General", base importance 3
with level "Standard" — and batch enrichment is exactly the per-item map, so
it continues with the next item. -/
theorem analyze_article_error_recovery :
    (∀ (o : GeminiOracle) (a : Article) (k : ℕ), o.exnAt = some k →
      (analyzeArticle o a).aiSummary =
        (if a.summary ≠ "" then pyTake a.summary 150 else "Summary not available") ∧
      (analyzeArticle o a).aiAnalysis = "" ∧
      (analyzeArticle o a).aiCategory = "General" ∧
      (analyzeArticle o a).importanceScore = 3 ∧
      (analyzeArticle o a).importanceLevel = "Standard") ∧
    (∀ items : List (GeminiOracle × Article),
      analyzeBatch items = items.map (fun p => analyzeArticle p.1 p.2) ∧
      (analyzeBatch items).length = items.length) := by
  constructor
  · intro o a k hk
    unfold analyzeArticle
    rw [hk]
    unfold analyzeFallback
    refine ⟨?_, rfl, rfl, rfl, rfl⟩
    simp [tryUpTo_summary]
  · intro items
    exact ⟨rfl, by simp [analyzeBatch]⟩

/-- C7 witness: applying the recovery theorem at a concrete failing oracle. -/
theorem analyze_article_error_recovery_witness :
    (analyzeArticle { exnAt := some 0 } plainSample).aiCategory = "General" ∧
    (analyzeArticle { exnAt := some 0 } plainSample).importanceScore = 3 ∧
    (analyzeArticle { exnAt := some 0 } plainSample).importanceLevel = "Standard" := by
  have h := analyze_article_error_recovery.1 { exnAt := some 0 } plainSample 0 rfl
  exact ⟨h.2.2.1, h.2.2.2.1, h.2.2.2.2⟩

/-- C8 counterexample: on the error-recovery path the themes list is left
unchanged, so an article entering enrichment with no themes comes out of a
failing `analyze_article` call with an empty themes list. -/
theorem error_path_can_leave_themes_empty :
    (analyzeArticle { exnAt := some 0 } plainSample).themes = [] := by
  decide

lemma assignThemes_ne_nil (a : Article) : assignThemes a ≠ [] := by
  unfold assignThemes
  dsimp only
  split_ifs with h
  · simp
  · exact h

/-- C8 (amended): `_assign_themes` never returns an empty list (keyword
matches, else the catch-all), so on the successful path enrichment always
leaves a non-empty themes list; the `except` path, however, does not touch
`themes`, leaving whatever was there before the failure. -/
theorem themes_nonempty_on_success_path :
    (∀ a : Article, assignThemes a ≠ []) ∧
    (∀ (o : GeminiOracle) (a : Article), o.exnAt = none → (analyzeArticle o a).themes ≠ []) ∧
    (∀ (o : GeminiOracle) (a : Article), o.exnAt = some 0 →
      (analyzeArticle o a).themes = a.themes) := by
  refine ⟨assignThemes_ne_nil, ?_, ?_⟩
  · intro o a hnone
    unfold analyzeArticle
    rw [hnone]
    show (tryUpTo o a 7).themes ≠ []
    simp only [tryUpTo, tryStage7, tryStage6]
    exact assignThemes_ne_nil _
  · intro o a h0
    unfold analyzeArticle
    rw [h0]
    show (analyzeFallback (tryUpTo o a (min 0 7))).themes = a.themes
    rw [show min 0 7 = 0 from by omega]
    rfl

/-- C8 witness: the amended theorem at a concrete successful oracle. -/
theorem themes_nonempty_on_success_path_witness :
    (analyzeArticle { summaryResp := .ok "gdp growth", exnAt := none } plainSample).themes ≠ [] :=
  themes_nonempty_on_success_path.2.1 { summaryResp := .ok "gdp growth", exnAt := none }
    plainSample rfl

/-! ## C3: terminal behaviour of quota exhaustion -/

/-- C3: once `quota_exhausted` is set, every subsequent `_call_api` issues
zero network requests and returns `None` with the state unchanged (so the flag
never reverts), and `generate_summary` returns its deterministic fallback
value. -/
theorem quota_exhausted_short_circuits :
    ∀ (s : ORState) (a : Article) (outcomes : List ApiOutcome), s.quotaExhausted = true →
      callApi s outcomes = (s, none, []) ∧
      orGenerateSummary s a outcomes = (s, orSummaryFallback a, []) ∧
      (callApi s outcomes).1.quotaExhausted = true := by
  intro s a outcomes h
  have h1 : callApi s outcomes = (s, none, []) := by
    cases outcomes with
    | nil => rfl
    | cons o rest => simp [callApi, h]
  refine ⟨h1, ?_, by rw [h1]; exact h⟩
  unfold orGenerateSummary
  rw [if_pos h]

/-- C3 witness: the short-circuit at a concrete exhausted state. -/
theorem quota_exhausted_short_circuits_witness :
    callApi orExhaustedState [ApiOutcome.ok "hi"] = (orExhaustedState, none, []) ∧
    orGenerateSummary orExhaustedState plainSample [ApiOutcome.ok "hi"] =
      (orExhaustedState, orSummaryFallback plainSample, []) :=
  ⟨(quota_exhausted_short_circuits orExhaustedState plainSample [ApiOutcome.ok "hi"] rfl).1,
   (quota_exhausted_short_circuits orExhaustedState plainSample [ApiOutcome.ok "hi"] rfl).2.1⟩

/-! ## C2: failover switching and model-index monotonicity -/

lemma callApi_throttled_switch (s : ORState) (rest : List ApiOutcome)
    (hq : s.quotaExhausted = false) (h3 : 3 ≤ s.consecutiveErrors + 1)
    (hsw : s.currentModelIndex < 3) :
    callApi s (ApiOutcome.throttled :: rest) =
      ((callApi { s with
          currentModelIndex := s.currentModelIndex + 1
          consecutiveErrors := 0
          failedRequests := s.failedRequests + 1 } rest).1,
       (callApi { s with
          currentModelIndex := s.currentModelIndex + 1
          consecutiveErrors := 0
          failedRequests := s.failedRequests + 1 } rest).2.1,
       (s.currentModelIndex, ApiOutcome.throttled) ::
         (callApi { s with
           currentModelIndex := s.currentModelIndex + 1
           consecutiveErrors := 0
           failedRequests := s.failedRequests + 1 } rest).2.2) := by
  simp [callApi, switchModel, maxConsecutiveErrors, numModels, hq, h3, hsw]

lemma callApi_throttled_exhaust (s : ORState) (rest : List ApiOutcome)
    (hq : s.quotaExhausted = false) (h3 : 3 ≤ s.consecutiveErrors + 1)
    (hsw : ¬ s.currentModelIndex < 3) :
    callApi s (ApiOutcome.throttled :: rest) =
      ({ s with
         consecutiveErrors := s.consecutiveErrors + 1
         failedRequests := s.failedRequests + 1
         quotaExhausted := true }, none,
       [(s.currentModelIndex, ApiOutcome.throttled)]) := by
  simp [callApi, switchModel, maxConsecutiveErrors, numModels, hq, h3, hsw]

lemma callApi_throttled_retry (s : ORState) (rest : List ApiOutcome)
    (hq : s.quotaExhausted = false) (h3 : ¬ 3 ≤ s.consecutiveErrors + 1) :
    callApi s (ApiOutcome.throttled :: rest) =
      ((callApi { s with
          consecutiveErrors := s.consecutiveErrors + 1
          failedRequests := s.failedRequests + 1 } rest).1,
       (callApi { s with
          consecutiveErrors := s.consecutiveErrors + 1
          failedRequests := s.failedRequests + 1 } rest).2.1,
       (s.currentModelIndex, ApiOutcome.throttled) ::
         (callApi { s with
           consecutiveErrors := s.consecutiveErrors + 1
           failedRequests := s.failedRequests + 1 } rest).2.2) := by
  simp [callApi, switchModel, maxConsecutiveErrors, numModels, hq, h3]

lemma callApi_model_monotone :
    ∀ (outcomes : List ApiOutcome) (s : ORState),
      s.currentModelIndex ≤ (callApi s outcomes).1.currentModelIndex ∧
      (∀ p ∈ (callApi s outcomes).2.2,
        s.currentModelIndex ≤ p.1 ∧ p.1 ≤ (callApi s outcomes).1.currentModelIndex) ∧
      ((callApi s outcomes).2.2.map Prod.fst).Pairwise (· ≤ ·) := by
  intro outcomes
  induction outcomes with
  | nil => intro s; simp [callApi]
  | cons o rest ih =>
    intro s
    by_cases hq : s.quotaExhausted
    · simp [callApi, hq]
    · simp only [Bool.not_eq_true] at hq
      cases o with
      | ok content => simp [callApi, hq]
      | otherError => simp [callApi, hq]
      | exn => simp [callApi, hq]
      | throttled =>
        by_cases h3 : 3 ≤ s.consecutiveErrors + 1
        · by_cases hsw : s.currentModelIndex < 3
          · rw [callApi_throttled_switch s rest hq h3 hsw]
            obtain ⟨ih1, ih2, ih3⟩ := ih { s with
              currentModelIndex := s.currentModelIndex + 1
              consecutiveErrors := 0
              failedRequests := s.failedRequests + 1 }
            dsimp only at ih1 ih2 ⊢
            refine ⟨by omega, ?_, ?_⟩
            · intro p hp
              rcases List.mem_cons.mp hp with h | h
              · subst h
                exact ⟨le_refl _, by omega⟩
              · have := ih2 p h
                exact ⟨by omega, this.2⟩
            · rw [List.map_cons]
              refine List.Pairwise.cons ?_ ih3
              intro m hm
              rcases List.mem_map.mp hm with ⟨p, hp, rfl⟩
              have := ih2 p hp
              omega
          · rw [callApi_throttled_exhaust s rest hq h3 hsw]
            simp
        · rw [callApi_throttled_retry s rest hq h3]
          obtain ⟨ih1, ih2, ih3⟩ := ih { s with
            consecutiveErrors := s.consecutiveErrors + 1
            failedRequests := s.failedRequests + 1 }
          dsimp only at ih1 ih2 ⊢
          refine ⟨ih1, ?_, ?_⟩
          · intro p hp
            rcases List.mem_cons.mp hp with h | h
            · subst h
              exact ⟨le_refl _, ih1⟩
            · exact ih2 p h
          · rw [List.map_cons]
            refine List.Pairwise.cons ?_ ih3
            intro m hm
            rcases List.mem_map.mp hm with ⟨p, hp, rfl⟩
            exact (ih2 p hp).1

/-- C2: whenever `consecutive_errors` reaches the threshold 3 on a throttled
request and a next model exists, `_call_api` switches to the next model with
`consecutive_errors` reset to 0 and retries there, charging the failed attempt
to the old model; the model index never decreases across a call, and the
issued requests use nondecreasing model indices bounded by the call's start
and final index — so an abandoned model is never retried for the remainder of
the run. -/
theorem failover_switches_and_never_retried :
    (∀ (s : ORState) (rest : List ApiOutcome),
      s.quotaExhausted = false → 2 ≤ s.consecutiveErrors → s.currentModelIndex < numModels - 1 →
      callApi s (ApiOutcome.throttled :: rest) =
        ((callApi { s with
            currentModelIndex := s.currentModelIndex + 1
            consecutiveErrors := 0
            failedRequests := s.failedRequests + 1 } rest).1,
         (callApi { s with
            currentModelIndex := s.currentModelIndex + 1
            consecutiveErrors := 0
            failedRequests := s.failedRequests + 1 } rest).2.1,
         (s.currentModelIndex, ApiOutcome.throttled) ::
           (callApi { s with
             currentModelIndex := s.currentModelIndex + 1
             consecutiveErrors := 0
             failedRequests := s.failedRequests + 1 } rest).2.2)) ∧
    (∀ (s : ORState) (outcomes : List ApiOutcome),
      s.currentModelIndex ≤ (callApi s outcomes).1.currentModelIndex) ∧
    (∀ (s : ORState) (outcomes : List ApiOutcome),
      ((callApi s outcomes).2.2.map Prod.fst).Pairwise (· ≤ ·) ∧
      ∀ p ∈ (callApi s outcomes).2.2,
        s.currentModelIndex ≤ p.1 ∧ p.1 ≤ (callApi s outcomes).1.currentModelIndex) := by
  refine ⟨?_, ?_, ?_⟩
  · intro s rest hq h2 hsw
    exact callApi_throttled_switch s rest hq (by omega) (by simpa [numModels] using hsw)
  · intro s outcomes
    exact (callApi_model_monotone outcomes s).1
  · intro s outcomes
    exact ⟨(callApi_model_monotone outcomes s).2.2, (callApi_model_monotone outcomes s).2.1⟩

/-- C2 witness: the switch transition at a concrete state two errors deep. -/
theorem failover_switches_witness :
    callApi { orInitState with consecutiveErrors := 2 } [ApiOutcome.throttled] =
      ({ orInitState with currentModelIndex := 1, consecutiveErrors := 0, failedRequests := 1 },
        none, [(0, ApiOutcome.throttled)]) := by
  have h := failover_switches_and_never_retried.1 { orInitState with consecutiveErrors := 2 } []
    (by decide) (by decide) (by decide)
  rw [h]
  rfl

/-! ## C10: bounded retry depth of `_call_api` -/

lemma callApi_attempt_bound :
    ∀ (outcomes : List ApiOutcome) (s : ORState),
      s.consecutiveErrors < 3 → s.currentModelIndex ≤ 3 →
      ((callApi s outcomes).2.2.countP (fun p => p.2 == ApiOutcome.throttled)) ≤
        3 * (4 - s.currentModelIndex) - s.consecutiveErrors ∧
      (callApi s outcomes).2.2.length ≤
        3 * (4 - s.currentModelIndex) - s.consecutiveErrors + 1 := by
  intro outcomes
  induction outcomes with
  | nil => intro s _ _; simp [callApi]
  | cons o rest ih =>
    intro s he hi
    by_cases hq : s.quotaExhausted
    · simp [callApi, hq]
    · simp only [Bool.not_eq_true] at hq
      cases o with
      | ok content =>
        simp [callApi, hq]
      | otherError =>
        simp [callApi, hq]
      | exn =>
        simp [callApi, hq]
      | throttled =>
        by_cases h3 : 3 ≤ s.consecutiveErrors + 1
        · by_cases hsw : s.currentModelIndex < 3
          · rw [callApi_throttled_switch s rest hq h3 hsw]
            obtain ⟨b1, b2⟩ := ih { s with
              currentModelIndex := s.currentModelIndex + 1
              consecutiveErrors := 0
              failedRequests := s.failedRequests + 1 } (by dsimp only; omega) (by dsimp only; omega)
            dsimp only at b1 b2 ⊢
            simp only [List.countP_cons, List.length_cons]
            rw [show (if (ApiOutcome.throttled == ApiOutcome.throttled) = true then 1 else 0) = 1 from rfl]
            constructor <;> omega
          · rw [callApi_throttled_exhaust s rest hq h3 hsw]
            simp only [List.countP_cons, List.countP_nil, List.length_cons, List.length_nil]
            rw [show (if (ApiOutcome.throttled == ApiOutcome.throttled) = true then 1 else 0) = 1 from rfl]
            constructor <;> omega
        · rw [callApi_throttled_retry s rest hq h3]
          obtain ⟨b1, b2⟩ := ih { s with
            consecutiveErrors := s.consecutiveErrors + 1
            failedRequests := s.failedRequests + 1 } (by dsimp only; omega) (by dsimp only; omega)
          dsimp only at b1 b2 ⊢
          simp only [List.countP_cons, List.length_cons]
          rw [show (if (ApiOutcome.throttled == ApiOutcome.throttled) = true then 1 else 0) = 1 from rfl]
          constructor <;> omega

/-- C10: any single `_call_api` request terminates with a bounded retry depth:
from a reachable state it issues at most
`maxConsecutiveErrors * (numModels - currentModelIndex) - consecutiveErrors`
throttled attempts (and one more request in total); in particular from the
initial state at most `numModels * maxConsecutiveErrors = 4 * 3 = 12`
throttled attempts before it succeeds, fails, or exhausts the quota. -/
theorem dispatcher_retry_depth_bounded :
    (∀ (s : ORState) (outcomes : List ApiOutcome),
      s.consecutiveErrors < maxConsecutiveErrors → s.currentModelIndex ≤ numModels - 1 →
      ((callApi s outcomes).2.2.countP (fun p => p.2 == ApiOutcome.throttled)) ≤
        maxConsecutiveErrors * (numModels - s.currentModelIndex) - s.consecutiveErrors ∧
      (callApi s outcomes).2.2.length ≤
        maxConsecutiveErrors * (numModels - s.currentModelIndex) - s.consecutiveErrors + 1) ∧
    (∀ outcomes : List ApiOutcome,
      ((callApi orInitState outcomes).2.2.countP (fun p => p.2 == ApiOutcome.throttled)) ≤
        numModels * maxConsecutiveErrors ∧
      (callApi orInitState outcomes).2.2.length ≤ numModels * maxConsecutiveErrors + 1) := by
  constructor
  · intro s outcomes he hi
    simp only [maxConsecutiveErrors, numModels] at he hi ⊢
    exact callApi_attempt_bound outcomes s he (by omega)
  · intro outcomes
    have h := callApi_attempt_bound outcomes orInitState (by decide) (by decide)
    simp only [maxConsecutiveErrors, numModels, orInitState] at h ⊢
    exact ⟨by omega, by omega⟩

/-- C10 witness: the bound at the initial state under 12 straight 429s. -/
theorem dispatcher_retry_depth_bounded_witness :
    ((callApi orInitState (List.replicate 12 ApiOutcome.throttled)).2.2.countP
      (fun p => p.2 == ApiOutcome.throttled)) ≤ 12 := by
  have h := (dispatcher_retry_depth_bounded.1 orInitState
    (List.replicate 12 ApiOutcome.throttled) (by decide) (by decide)).1
  simpa [maxConsecutiveErrors, numModels, orInitState] using h

/-! ## C1: rate limiter pacing -/

/-- Closed form of one `_check_rate_limit` call (for `cap ≥ 1`): the request
happens at `lastRequestTime + max gap minDelay` unless the counter was at the
cap, in which case the call waits to the 65-second mark of the window. -/
lemma rlStep_eq (minDelay cap : ℕ) (s : RateState) (gap : ℕ) (hcap : 1 ≤ cap) :
    rlStep minDelay cap s gap =
      (let t := s.lastRequestTime + max gap minDelay
       if t - s.lastReset > 60 then
         (⟨1, t, t⟩, t)
       else if cap ≤ s.requestCount then
         (⟨1, s.lastReset + 65, s.lastReset + 65⟩, s.lastReset + 65)
       else
         (⟨s.requestCount + 1, s.lastReset, t⟩, t)) := by
  unfold rlStep
  dsimp only
  have ht : (if s.lastRequestTime + gap - s.lastRequestTime < minDelay then
      s.lastRequestTime + gap + (minDelay - (s.lastRequestTime + gap - s.lastRequestTime))
      else s.lastRequestTime + gap) = s.lastRequestTime + max gap minDelay := by
    split_ifs <;> omega
  rw [ht]
  by_cases hexp : s.lastRequestTime + max gap minDelay - s.lastReset > 60
  · rw [if_pos hexp, if_pos hexp]
    dsimp only
    rw [if_neg (by omega)]
  · rw [if_neg hexp, if_neg hexp]
    by_cases hcnt : cap ≤ s.requestCount
    · rw [if_pos hcnt, if_pos hcnt]
      rw [if_pos (by omega :
        (0 : ℤ) < 65 - (((s.lastRequestTime + max gap minDelay : ℕ) : ℤ) - (s.lastReset : ℤ)))]
      dsimp only
      have : s.lastRequestTime + max gap minDelay +
          ((65 : ℤ) - (((s.lastRequestTime + max gap minDelay : ℕ) : ℤ) -
            (s.lastReset : ℤ))).toNat = s.lastReset + 65 := by omega
      rw [this]
    · rw [if_neg hcnt, if_neg hcnt]

lemma rlRun_min_delay (minDelay cap : ℕ) (hcap : 1 ≤ cap) :
    ∀ (gaps : List ℕ) (s : RateState),
      (∀ p ∈ rlRun minDelay cap s gaps, s.lastRequestTime + minDelay ≤ p.1) ∧
      List.Chain' (fun p q : ℕ × ℕ => p.1 + minDelay ≤ q.1) (rlRun minDelay cap s gaps) := by
  intro gaps
  induction gaps with
  | nil => intro s; simp [rlRun]
  | cons g gs ih =>
    intro s
    rw [rlRun, rlStep_eq minDelay cap s g hcap]
    dsimp only
    split_ifs with hexp hcnt
    · dsimp only
      obtain ⟨ih1, ih2⟩ := ih ⟨1, s.lastRequestTime + max g minDelay,
        s.lastRequestTime + max g minDelay⟩
      dsimp only at ih1
      constructor
      · intro p hp
        rcases List.mem_cons.mp hp with h | h
        · subst h
          dsimp only
          omega
        · have := ih1 p h
          omega
      · refine List.chain'_cons'.mpr ⟨?_, ih2⟩
        intro q hq
        have := ih1 q (List.mem_of_mem_head? hq)
        dsimp only
        omega
    · dsimp only
      obtain ⟨ih1, ih2⟩ := ih ⟨1, s.lastReset + 65, s.lastReset + 65⟩
      dsimp only at ih1
      constructor
      · intro p hp
        rcases List.mem_cons.mp hp with h | h
        · subst h
          dsimp only
          omega
        · have := ih1 p h
          omega
      · refine List.chain'_cons'.mpr ⟨?_, ih2⟩
        intro q hq
        have := ih1 q (List.mem_of_mem_head? hq)
        dsimp only
        omega
    · dsimp only
      obtain ⟨ih1, ih2⟩ := ih ⟨s.requestCount + 1, s.lastReset,
        s.lastRequestTime + max g minDelay⟩
      dsimp only at ih1
      constructor
      · intro p hp
        rcases List.mem_cons.mp hp with h | h
        · subst h
          dsimp only
          omega
        · have := ih1 p h
          omega
      · refine List.chain'_cons'.mpr ⟨?_, ih2⟩
        intro q hq
        have := ih1 q (List.mem_of_mem_head? hq)
        dsimp only
        omega

lemma rlRun_window_count (minDelay cap : ℕ) (hcap : 1 ≤ cap) :
    ∀ (gaps : List ℕ) (s : RateState),
      s.lastReset ≤ s.lastRequestTime → s.requestCount ≤ cap →
      (∀ p ∈ rlRun minDelay cap s gaps, s.lastReset ≤ p.2) ∧
      ((rlRun minDelay cap s gaps).countP (fun p => p.2 == s.lastReset)) + s.requestCount ≤ cap ∧
      (∀ w : ℕ, w ≠ s.lastReset →
        ((rlRun minDelay cap s gaps).countP (fun p => p.2 == w)) ≤ cap) := by
  intro gaps
  induction gaps with
  | nil =>
    intro s h1 h2
    refine ⟨by simp [rlRun], by simp [rlRun]; omega, by simp [rlRun]⟩
  | cons g gs ih =>
    intro s hRL hcnt
    rw [rlRun, rlStep_eq minDelay cap s g hcap]
    dsimp only
    split_ifs with hexp hcap2
    · -- window expired: fresh window at the request time
      obtain ⟨ih1, ih2, ih3⟩ := ih ⟨1, s.lastRequestTime + max g minDelay,
        s.lastRequestTime + max g minDelay⟩ (le_refl _) hcap
      dsimp only at ih1 ih2 ih3 ⊢
      have hRT : s.lastReset < s.lastRequestTime + max g minDelay := by omega
      refine ⟨?_, ?_, ?_⟩
      · intro p hp
        rcases List.mem_cons.mp hp with h | h
        · subst h
          dsimp only
          omega
        · have := ih1 p h
          omega
      · rw [List.countP_cons]
        have hne : ((s.lastRequestTime + max g minDelay, s.lastRequestTime + max g minDelay).2 ==
            s.lastReset) = false := beq_eq_false_iff_ne.mpr (by dsimp only; omega)
        rw [hne]
        have hzero : (rlRun minDelay cap ⟨1, s.lastRequestTime + max g minDelay,
            s.lastRequestTime + max g minDelay⟩ gs).countP (fun p => p.2 == s.lastReset) = 0 := by
          rw [List.countP_eq_zero]
          intro p hp
          have := ih1 p hp
          simp only [beq_iff_eq]
          omega
        rw [hzero, show (if false = true then (1:ℕ) else 0) = 0 from rfl]
        omega
      · intro w hw
        rw [List.countP_cons]
        by_cases hwT : w = s.lastRequestTime + max g minDelay
        · subst hwT
          rw [show (((s.lastRequestTime + max g minDelay, s.lastRequestTime + max g minDelay).2 ==
              s.lastRequestTime + max g minDelay)) = true from beq_iff_eq.mpr rfl]
          simpa using ih2
        · rw [show (((s.lastRequestTime + max g minDelay, s.lastRequestTime + max g minDelay).2 ==
              w)) = false from beq_eq_false_iff_ne.mpr (by dsimp only; omega)]
          simpa using ih3 w (by omega)
    · -- counter at the cap: wait to the 65-second mark, fresh window there
      obtain ⟨ih1, ih2, ih3⟩ := ih ⟨1, s.lastReset + 65, s.lastReset + 65⟩ (le_refl _) hcap
      dsimp only at ih1 ih2 ih3 ⊢
      refine ⟨?_, ?_, ?_⟩
      · intro p hp
        rcases List.mem_cons.mp hp with h | h
        · subst h
          dsimp only
          omega
        · have := ih1 p h
          omega
      · rw [List.countP_cons]
        rw [show (((s.lastReset + 65, s.lastReset + 65).2 == s.lastReset)) = false from
          beq_eq_false_iff_ne.mpr (by dsimp only; omega)]
        have hzero : (rlRun minDelay cap ⟨1, s.lastReset + 65, s.lastReset + 65⟩ gs).countP
            (fun p => p.2 == s.lastReset) = 0 := by
          rw [List.countP_eq_zero]
          intro p hp
          have := ih1 p hp
          simp only [beq_iff_eq]
          omega
        rw [hzero, show (if false = true then (1:ℕ) else 0) = 0 from rfl]
        omega
      · intro w hw
        rw [List.countP_cons]
        by_cases hwT : w = s.lastReset + 65
        · subst hwT
          rw [show (((s.lastReset + 65, s.lastReset + 65).2 == s.lastReset + 65)) = true from
            beq_iff_eq.mpr rfl]
          simpa using ih2
        · rw [show (((s.lastReset + 65, s.lastReset + 65).2 == w)) = false from
            beq_eq_false_iff_ne.mpr (by dsimp only; omega)]
          simpa using ih3 w (by omega)
    · -- same window: the counter advances
      obtain ⟨ih1, ih2, ih3⟩ := ih ⟨s.requestCount + 1, s.lastReset,
        s.lastRequestTime + max g minDelay⟩ (by dsimp only; omega) (by dsimp only; omega)
      dsimp only at ih1 ih2 ih3 ⊢
      refine ⟨?_, ?_, ?_⟩
      · intro p hp
        rcases List.mem_cons.mp hp with h | h
        · subst h
          dsimp only
          omega
        · have := ih1 p h
          omega
      · rw [List.countP_cons]
        rw [show (((s.lastRequestTime + max g minDelay, s.lastReset).2 == s.lastReset)) = true from
          beq_iff_eq.mpr rfl, show (if true = true then (1:ℕ) else 0) = 1 from rfl]
        omega
      · intro w hw
        rw [List.countP_cons]
        rw [show (((s.lastRequestTime + max g minDelay, s.lastReset).2 == w)) = false from
          beq_eq_false_iff_ne.mpr (by dsimp only; omega)]
        simpa using ih3 w hw

/-- C1 counterexample: under the Gemini limiter (minimum delay 4 s, cap 10 per
window) the caller schedule `c1Gaps` produces 14 requests whose timestamps all
lie inside the single sliding 60-second window starting at 46 s — the window
counter is a fixed window that resets, so a sliding window straddling a reset
can hold more than the cap. -/
theorem rate_limiter_sliding_window_refuted :
    ¬ slidingWindowCapOk 10 ((rlRun 4 10 initRateState c1Gaps).map Prod.fst) := by
  intro h
  exact absurd (h 46) (by decide)

/-- C1 (amended): for any configuration with a positive cap and any sequence
of sequential calls, consecutive request timestamps are at least the minimum
delay apart, and the number of requests counted in any one fixed window
(requests sharing a `last_reset` value) never exceeds the cap.  The sliding
60-second-window form of the claim is refuted above. -/
theorem rate_limiter_min_delay_and_fixed_window_cap :
    ∀ (minDelay cap : ℕ) (gaps : List ℕ), 1 ≤ cap →
      List.Chain' (fun p q : ℕ × ℕ => p.1 + minDelay ≤ q.1)
        (rlRun minDelay cap initRateState gaps) ∧
      ∀ w : ℕ, ((rlRun minDelay cap initRateState gaps).countP (fun p => p.2 == w)) ≤ cap := by
  intro minDelay cap gaps hcap
  refine ⟨(rlRun_min_delay minDelay cap hcap gaps initRateState).2, ?_⟩
  intro w
  obtain ⟨h1, h2, h3⟩ := rlRun_window_count minDelay cap hcap gaps initRateState
    (le_refl 0) (Nat.zero_le _)
  by_cases hw : w = initRateState.lastReset
  · rw [hw]
    omega
  · exact h3 w hw

/-- C1 witness: the amended property at the Gemini configuration on a concrete
schedule. -/
theorem rate_limiter_min_delay_witness :
    List.Chain' (fun p q : ℕ × ℕ => p.1 + 4 ≤ q.1) (rlRun 4 10 initRateState [0, 0]) ∧
    ((rlRun 4 10 initRateState [0, 0]).countP (fun p => p.2 == 0)) ≤ 10 :=
  ⟨(rate_limiter_min_delay_and_fixed_window_cap 4 10 [0, 0] (by decide)).1,
   (rate_limiter_min_delay_and_fixed_window_cap 4 10 [0, 0] (by decide)).2 0⟩

/-! ## C4: chunking round-trip -/

lemma pyRfind_eq_neg_one (l sub : List Char) (lo hi : ℕ) (c : Char)
    (hc : c ∈ sub) (hl : c ∉ l) : pyRfind l sub lo hi = -1 := by
  unfold pyRfind
  have hfil : (l.tails.enum.filter
      (fun p => decide (lo ≤ p.1) && decide (p.1 + sub.length ≤ hi) && sub.isPrefixOf p.2)) = [] := by
    rw [List.filter_eq_nil_iff]
    rintro ⟨i, t⟩ hp
    simp only [Bool.and_eq_true, decide_eq_true_eq, not_and]
    intro _ hpre
    have hsuf : t <:+ l := by
      have hmem : t ∈ l.tails := by
        rw [List.enum_eq_zip_range] at hp
        exact (List.of_mem_zip hp).2
      exact (List.mem_tails _ _).mp hmem
    have hsp : sub <+: t := List.isPrefixOf_iff_prefix.mp hpre
    exact absurd (hsuf.subset (hsp.subset hc)) hl
  rw [hfil]
  rfl

lemma chunkEnd_eq (text : List Char) (cs start : ℕ)
    (hp : pyRfind text ['\n', '\n'] (start + cs / 2) (start + cs) = -1)
    (hs : pyRfind text ['.', ' '] (start + cs / 2) (start + cs) = -1) :
    chunkEnd text cs start = start + cs := by
  unfold chunkEnd
  dsimp only
  by_cases h : start + cs < text.length
  · rw [if_pos h, hp, hs]
    rw [if_neg (by omega : ¬ ((-1 : ℤ) > (start : ℤ))),
        if_neg (by omega : ¬ ((-1 : ℤ) > (start : ℤ)))]
  · rw [if_neg h]

lemma dropWhile_eq_self_of_all (p : Char → Bool) :
    ∀ l : List Char, (∀ c ∈ l, p c = false) → l.dropWhile p = l := by
  intro l h
  cases l with
  | nil => rfl
  | cons a t =>
    rw [List.dropWhile_cons, h a (List.mem_cons_self a t)]
    simp

lemma pyStripList_eq_self (l : List Char) (h : ∀ c ∈ l, pySpace c = false) :
    pyStripList l = l := by
  unfold pyStripList
  rw [dropWhile_eq_self_of_all pySpace l h,
      dropWhile_eq_self_of_all pySpace l.reverse (fun c hc => h c (List.mem_reverse.mp hc)),
      List.reverse_reverse]

lemma chunkTextAux_stop (text : List Char) (cs ov : ℕ) (fuel start : ℕ)
    (h : ¬ start < text.length) : chunkTextAux text cs ov fuel start = [] := by
  cases fuel with
  | zero => rfl
  | succ f => rw [chunkTextAux, if_neg h]

lemma chunkTextAux_reconstruct (text : List Char) (cs ov : ℕ)
    (hws : ∀ c ∈ text, pySpace c = false) (hov : ov < cs) :
    ∀ (fuel start : ℕ), start < text.length → text.length ≤ fuel + start →
      ∃ c r, chunkTextAux text cs ov fuel start = c :: r ∧
        c.length = min cs (text.length - start) ∧
        reconstruct ov (c :: r) = text.drop start := by
  intro fuel
  induction fuel with
  | zero => intro start h1 h2; omega
  | succ f ih =>
    intro start h1 h2
    have hn : ('\n' : Char) ∉ text := fun hmem => by
      have := hws _ hmem
      simp [pySpace] at this
    have hsp : (' ' : Char) ∉ text := fun hmem => by
      have := hws _ hmem
      simp [pySpace] at this
    have hend : chunkEnd text cs start = start + cs :=
      chunkEnd_eq text cs start
        (pyRfind_eq_neg_one text _ _ _ '\n' (by simp) hn)
        (pyRfind_eq_neg_one text _ _ _ ' ' (by simp) hsp)
    rw [chunkTextAux, if_pos h1, hend]
    dsimp only
    have hstrip : pyStripList ((text.drop start).take (start + cs - start)) =
        (text.drop start).take cs := by
      rw [show start + cs - start = cs from by omega]
      exact pyStripList_eq_self _
        (fun c hc => hws c (List.drop_subset start text (List.take_subset cs _ hc)))
    rw [hstrip]
    have hne : (text.drop start).take cs ≠ [] := by
      intro hnil
      have := congrArg List.length hnil
      rw [List.length_take, List.length_drop] at this
      simp at this
      omega
    rw [if_neg hne]
    by_cases hlast : start + cs < text.length
    · rw [if_pos hlast]
      obtain ⟨c', r', heq, hlen', hrec⟩ := ih (start + cs - ov) (by omega) (by omega)
      rw [heq]
      refine ⟨_, _, rfl, ?_, ?_⟩
      · rw [List.length_take, List.length_drop]
      · have hc'len : ov < c'.length := by
          rw [hlen']
          omega
        show (text.drop start).take cs ++
            (List.drop ov c' :: r'.map (List.drop ov)).flatten = text.drop start
        rw [List.flatten_cons]
        have hjoin : List.drop ov c' ++ (r'.map (List.drop ov)).flatten =
            List.drop ov (reconstruct ov (c' :: r')) := by
          show _ = List.drop ov (c' ++ (r'.map (List.drop ov)).flatten)
          rw [List.drop_append_eq_append_drop, show ov - c'.length = 0 from by omega,
            List.drop_zero]
        rw [hjoin, hrec, List.drop_drop,
          show start + cs - ov + ov = start + cs from by omega,
          ← List.drop_drop cs start text]
        exact List.take_append_drop cs (List.drop start text)
    · rw [if_neg hlast]
      rw [chunkTextAux_stop text cs ov f text.length (by omega)]
      refine ⟨_, [], rfl, ?_, ?_⟩
      · rw [List.length_take, List.length_drop]
      · show (text.drop start).take cs ++ ([] : List (List Char)).flatten = text.drop start
        rw [List.flatten_nil, List.append_nil]
        exact List.take_of_length_le (by rw [List.length_drop]; omega)

/-- C4 (amended): for whitespace-free text the boundary stripping is inert, so
concatenating all chunks minus the configured overlap reconstructs the
original text exactly. -/
theorem chunk_roundtrip_whitespace_free :
    ∀ (text : List Char) (chunkSize overlap : ℕ),
      (∀ c ∈ text, pySpace c = false) → overlap < chunkSize → chunkSize < text.length →
      reconstruct overlap (chunkText text chunkSize overlap) = text := by
  intro text cs ov hws hov hlen
  unfold chunkText
  rw [if_neg (by omega)]
  obtain ⟨c, r, heq, _, hrec⟩ := chunkTextAux_reconstruct text cs ov hws hov
    (text.length + 1) 0 (by omega) (by omega)
  rw [heq, hrec, List.drop_zero]

/-- C4 witness: the amended round-trip at a small whitespace-free text. -/
theorem chunk_roundtrip_whitespace_free_witness :
    reconstruct 3 (chunkText (List.replicate 13 'a') 10 3) = List.replicate 13 'a' :=
  chunk_roundtrip_whitespace_free (List.replicate 13 'a') 10 3 (by decide) (by decide) (by decide)

lemma dropWhile_replicate (p : Char → Bool) (a : Char) (h : p a = false) :
    ∀ n : ℕ, (List.replicate n a).dropWhile p = List.replicate n a := by
  intro n
  cases n with
  | zero => rfl
  | succ m =>
    rw [List.replicate_succ, List.dropWhile_cons, h]
    simp [List.replicate_succ]

lemma dropWhile_replicate_append (p : Char → Bool) (a : Char) (h : p a = false) (n : ℕ)
    (t : List Char) (hn : 0 < n) :
    (List.replicate n a ++ t).dropWhile p = List.replicate n a ++ t := by
  cases n with
  | zero => omega
  | succ m =>
    rw [List.replicate_succ, List.cons_append, List.dropWhile_cons, h]
    simp [List.replicate_succ]

lemma c4_len : c4Text.length = 8002 := by
  unfold c4Text
  rw [List.length_append, List.length_replicate]
  rfl

lemma c4_no_nl : ('\n' : Char) ∉ c4Text := by
  unfold c4Text
  intro h
  rcases List.mem_append.mp h with h | h
  · have := (List.mem_replicate.mp h).2
    exact absurd this (by decide)
  · simp at h

lemma c4_no_dot : ('.' : Char) ∉ c4Text := by
  unfold c4Text
  intro h
  rcases List.mem_append.mp h with h | h
  · have := (List.mem_replicate.mp h).2
    exact absurd this (by decide)
  · simp at h

lemma c4_chunkEnd0 : chunkEnd c4Text 8000 0 = 8000 := by
  rw [chunkEnd_eq c4Text 8000 0
    (pyRfind_eq_neg_one c4Text _ _ _ '\n' (by simp) c4_no_nl)
    (pyRfind_eq_neg_one c4Text _ _ _ '.' (by simp) c4_no_dot)]

lemma c4_chunkEnd7500 : chunkEnd c4Text 8000 7500 = 15500 := by
  rw [chunkEnd_eq c4Text 8000 7500
    (pyRfind_eq_neg_one c4Text _ _ _ '\n' (by simp) c4_no_nl)
    (pyRfind_eq_neg_one c4Text _ _ _ '.' (by simp) c4_no_dot)]

lemma c4_take8000 : c4Text.take 8000 = List.replicate 7999 'a' ++ [' '] := by
  unfold c4Text
  rw [List.take_append_eq_append_take,
    List.take_of_length_le (by rw [List.length_replicate]; omega), List.length_replicate]
  rw [show (8000 - 7999 : ℕ) = 1 from rfl]
  rfl

lemma c4_drop7500 : c4Text.drop 7500 = List.replicate 499 'a' ++ [' ', 'b', 'b'] := by
  unfold c4Text
  rw [List.drop_append_eq_append_drop, List.drop_replicate, List.length_replicate]
  rw [show (7999 - 7500 : ℕ) = 499 from rfl, show (7500 - 7999 : ℕ) = 0 from rfl, List.drop_zero]

lemma c4_strip1 : pyStripList (List.replicate 7999 'a' ++ [' ']) = List.replicate 7999 'a' := by
  unfold pyStripList
  rw [dropWhile_replicate_append pySpace 'a' (by decide) 7999 [' '] (by omega)]
  rw [List.reverse_append, List.reverse_replicate]
  rw [show ([' '] : List Char).reverse = [' '] from rfl, List.singleton_append,
    List.dropWhile_cons, show pySpace ' ' = true from by decide]
  rw [if_pos rfl, dropWhile_replicate pySpace 'a' (by decide) 7999, List.reverse_replicate]

lemma c4_strip2 : pyStripList (List.replicate 499 'a' ++ [' ', 'b', 'b']) =
    List.replicate 499 'a' ++ [' ', 'b', 'b'] := by
  unfold pyStripList
  rw [dropWhile_replicate_append pySpace 'a' (by decide) 499 _ (by omega)]
  rw [List.reverse_append, List.reverse_replicate]
  rw [show ([' ', 'b', 'b'] : List Char).reverse = ['b', 'b', ' '] from rfl]
  rw [show (['b', 'b', ' '] : List Char) ++ List.replicate 499 'a' =
    'b' :: ('b' :: (' ' :: List.replicate 499 'a')) from rfl]
  rw [List.dropWhile_cons, show pySpace 'b' = false from by decide]
  rw [if_neg (by simp)]
  rw [show ('b' :: ('b' :: (' ' :: List.replicate 499 'a'))) =
    (['b', 'b', ' '] : List Char) ++ List.replicate 499 'a' from rfl]
  rw [List.reverse_append, List.reverse_replicate]
  rw [show (['b', 'b', ' '] : List Char).reverse = [' ', 'b', 'b'] from rfl]

lemma c4_chunks : chunkText c4Text 8000 500 =
    [List.replicate 7999 'a', List.replicate 499 'a' ++ [' ', 'b', 'b']] := by
  unfold chunkText
  rw [c4_len, if_neg (by omega)]
  rw [chunkTextAux, if_pos (by rw [c4_len]; omega), c4_chunkEnd0]
  dsimp only
  rw [show (8000 - 0 : ℕ) = 8000 from rfl, List.drop_zero, c4_take8000, c4_strip1]
  rw [if_neg (show ¬(List.replicate 7999 'a') = [] by
    intro h
    have hl := congrArg List.length h
    rw [List.length_replicate, List.length_nil] at hl
    exact absurd hl (by omega)), if_pos (by rw [c4_len]; omega)]
  rw [show (8000 - 500 : ℕ) = 7500 from rfl]
  rw [show (8002 : ℕ) = 8001 + 1 from rfl, chunkTextAux, if_pos (by rw [c4_len]; omega),
    c4_chunkEnd7500]
  dsimp only
  rw [show (15500 - 7500 : ℕ) = 8000 from rfl, c4_drop7500,
    List.take_of_length_le (by
      rw [List.length_append, List.length_replicate,
        show ([' ', 'b', 'b'] : List Char).length = 3 from rfl]
      omega), c4_strip2]
  rw [if_neg (show ¬(List.replicate 499 'a' ++ [' ', 'b', 'b']) = [] by
    intro h
    have hl := congrArg List.length h
    rw [List.length_append, List.length_replicate,
      show ([' ', 'b', 'b'] : List Char).length = 3 from rfl, List.length_nil] at hl
    exact absurd hl (by omega))]
  rw [if_neg (show ¬(15500 < c4Text.length) by rw [c4_len]; omega)]
  rw [chunkTextAux_stop c4Text 8000 500 8001 c4Text.length (by omega)]

/-- C4 counterexample: `c4Text` is longer than the default chunk target 8000,
yet concatenating the produced chunks after removing the 500-character overlap
does not reconstruct it — the space `.strip()`-ped from the first chunk's end
is lost (the result is one character short). -/
theorem chunk_roundtrip_refuted :
    8000 < c4Text.length ∧ reconstruct 500 (chunkText c4Text 8000 500) ≠ c4Text := by
  constructor
  · rw [c4_len]
    omega
  · rw [c4_chunks]
    show List.replicate 7999 'a' ++
      ([List.replicate 499 'a' ++ [' ', 'b', 'b']].map (List.drop 500)).flatten ≠ c4Text
    rw [List.map_cons, List.map_nil, List.flatten_cons, List.flatten_nil, List.append_nil]
    rw [List.drop_append_eq_append_drop, List.drop_replicate, List.length_replicate]
    rw [show (499 - 500 : ℕ) = 0 from rfl, show (500 - 499 : ℕ) = 1 from rfl,
      List.replicate_zero, List.nil_append,
      show List.drop 1 ([' ', 'b', 'b'] : List Char) = ['b', 'b'] from rfl]
    intro h
    have hlen := congrArg List.length h
    rw [List.length_append, List.length_replicate, c4_len] at hlen
    exact absurd hlen (by decide)

end EIA
